import Mathlib

/-!
# Health Sphere — verification of the prediction-and-continuous-learning core

A shallow embedding of the Health Sphere appointment platform.  The
backend's machine-learning core (`core/services/data_cleaning.py`,
`core/services/ml_service.py`, the MongoEngine models and views) is not
present in this repository snapshot — only its README and system
documentation are — so those components are modelled from the
specification's own words (each such definition says so in its doc
comment).  The frontend analytics (prediction-accuracy buckets, dashboard
show/no-show rates) are embedded directly from the React sources that are
present.

Dates are represented as integer day numbers (days since an arbitrary
epoch), so "strictly earlier than" is `<` on `Int` and day differences are
integer subtraction.
-/

namespace HealthSphere

/-- Lifecycle status of a scheduled visit: pending, done or canceled. -/
inductive VisitStatus
  | pending
  | done
  | canceled
deriving DecidableEq, Repr

/-- A visit record as read by the feature-computation core: patient
reference, scheduled date (day number) and outcome. -/
structure Visit where
  patientId : Nat
  scheduledDate : Int
  status : VisitStatus
  showedUp : Option Bool
deriving DecidableEq, Repr

/-- Modelled from the spec: the collection step of
`AttendanceScoreCalculator.score` (backend `core/services` is absent from
the snapshot) — all of this patient's visits with status=done and a
scheduled date strictly earlier than the cutoff date. -/
def priorDoneVisits (pid : Nat) (cutoff : Int) (history : List Visit) : List Visit :=
  history.filter fun v =>
    decide (v.patientId = pid ∧ v.status = VisitStatus.done ∧ v.scheduledDate < cutoff)

/-- Modelled from the spec: `AttendanceScoreCalculator.score(patientId,
cutoffDate)` (backend `core/services` is absent from the snapshot) —
percentage = 100 × (count where showedUp=true) / (count considered) over
the qualifying prior visits, with a neutral default of 75.0 when no
qualifying prior visit exists. -/
def score (pid : Nat) (cutoff : Int) (history : List Visit) : ℚ :=
  let q := priorDoneVisits pid cutoff history
  if q.length = 0 then 75
  else 100 * ((q.filter fun v => decide (v.showedUp = some true)).length : ℚ) / (q.length : ℚ)

/-- The denominator predicate of the attendance score: a done visit of
this patient strictly before the cutoff. -/
def isQualifying (pid : Nat) (cutoff : Int) (v : Visit) : Prop :=
  v.patientId = pid ∧ v.status = VisitStatus.done ∧ v.scheduledDate < cutoff

instance (pid : Nat) (cutoff : Int) (v : Visit) : Decidable (isQualifying pid cutoff v) := by
  unfold isQualifying; infer_instance

/-- Patient sex as stored in demographics. -/
inductive Sex
  | female
  | male
deriving DecidableEq, Repr

/-- Modelled from the spec: the canonical binary encoding of sex used by
the feature builder (one sex → 0, the other → 1). -/
def encodeSex : Sex → ℚ
  | Sex.female => 0
  | Sex.male => 1

/-- A patient as read by the feature-computation core: identity, optional
age and sex. -/
structure Patient where
  id : Nat
  age : Option ℚ
  sex : Sex
deriving DecidableEq, Repr

/-- Modelled from the spec: the FeatureVector value type — five ordered
numeric fields (the backend feature-engineering code is absent from the
snapshot). -/
structure FeatureVector where
  age : ℚ
  sex : ℚ
  schedulingInterval : ℚ
  reminderSent : ℚ
  attendanceScore : ℚ
deriving DecidableEq, Repr

/-- Modelled from the spec: the scheduling interval feature —
max(0, scheduledDate − bookingDate in whole days). -/
def schedulingInterval (bookingDate scheduledDate : Int) : Int :=
  max 0 (scheduledDate - bookingDate)

/-- Modelled from the spec: `FeatureVectorBuilder.build` (backend
`core/services` is absent from the snapshot) — age imputed with the
training-population median when absent, binary-encoded sex, scheduling
interval, reminderSent as 0/1, and the attendance score of 4.1 with the
scheduled date as cutoff. -/
def buildFeatureVector (p : Patient) (medianAge : ℚ) (bookingDate scheduledDate : Int)
    (reminderSent : Bool) (history : List Visit) : FeatureVector :=
  { age := p.age.getD medianAge
    sex := encodeSex p.sex
    schedulingInterval := (schedulingInterval bookingDate scheduledDate : ℚ)
    reminderSent := if reminderSent then 1 else 0
    attendanceScore := score p.id scheduledDate history }

/-- Modelled from the spec: the fixed-order list of the five features as
consumed by the trained model. -/
def featureList (v : FeatureVector) : List ℚ :=
  [v.age, v.sex, v.schedulingInterval, v.reminderSent, v.attendanceScore]

/-- The result of `PredictionService.predict`: a label and an integer
percentage. -/
structure PredictionResult where
  label : String
  probability : ℤ
deriving DecidableEq, Repr

/-- Modelled from the spec: the post-processing of
`PredictionService.predict` over the classifier's calibrated show
probability (backend `core/services/ml_service.py` is absent from the
snapshot) — label "Show" when probability ≥ 0.5 else "No-show", and the
probability reported as an integer percentage via rounding. -/
def predictFromProbability (p : ℚ) : PredictionResult :=
  { label := if (1 : ℚ) / 2 ≤ p then "Show" else "No-show"
    probability := round (100 * p) }

/-- The resolved status of a raw dataset row: kept (attended), missed
(did not attend), cancelled, or unknown. -/
inductive RowStatus
  | kept
  | missed
  | cancelled
  | unknown
deriving DecidableEq, Repr

/-- A raw row of the union of bulk historical data and accumulated live
outcomes, before cleaning.  Optional fields may be missing in the raw
data. -/
structure RawRow where
  visitId : Nat
  patientId : Option Nat
  age : Option ℚ
  bookingDate : Int
  scheduledDate : Option Int
  status : RowStatus
  reminder : Option Bool
deriving DecidableEq, Repr

/-- A raw row has all the required fields: patient id, age and scheduled
date. -/
def hasRequiredFields (r : RawRow) : Bool :=
  r.patientId.isSome && r.age.isSome && r.scheduledDate.isSome

/-- Worker of the keep-first de-duplication: rows whose visit identity
was already seen are dropped. -/
def dedupeGo (seen : List Nat) : List RawRow → List RawRow
  | [] => []
  | r :: rs =>
    if r.visitId ∈ seen then dedupeGo seen rs
    else r :: dedupeGo (r.visitId :: seen) rs

/-- Modelled from the spec: de-duplication by visit identity, keeping the
first occurrence (backend `core/services/data_cleaning.py` is absent from
the snapshot). -/
def dedupeKeepFirst (l : List RawRow) : List RawRow :=
  dedupeGo [] l

/-- The row resolves unambiguously to a kept or missed outcome. -/
def resolvesToOutcome (r : RawRow) : Bool :=
  decide (r.status = RowStatus.kept ∨ r.status = RowStatus.missed)

/-- Modelled from the spec: label kept → 1, missed → 0. -/
def labelOf (r : RawRow) : Nat :=
  if r.status = RowStatus.kept then 1 else 0

/-- The scheduling interval of a raw row in whole days. -/
def rowInterval (r : RawRow) : Int :=
  schedulingInterval r.bookingDate (r.scheduledDate.getD 0)

/-- Modelled from the spec: a row lacking an explicit reminder flag gets
it derived heuristically from the scheduling interval (interval ≥ 3 days
⇒ assume a reminder was sent). -/
def reminderFinal (r : RawRow) : Bool :=
  match r.reminder with
  | some b => b
  | none => decide (3 ≤ rowInterval r)

/-- View of a cleaned row as a visit record for per-row attendance-score
computation (every cleaned row has a resolved done outcome). -/
def rowToVisit (r : RawRow) : Visit :=
  { patientId := r.patientId.getD 0
    scheduledDate := r.scheduledDate.getD 0
    status := VisitStatus.done
    showedUp := some (decide (r.status = RowStatus.kept)) }

/-- A row of the cleaned, labeled training table. -/
structure CleanRow where
  raw : RawRow
  label : Nat
  reminder : Bool
  attendanceScore : ℚ
deriving DecidableEq, Repr

/-- The filtering stages of the cleaner: drop rows with missing required
fields, de-duplicate keeping the first occurrence, keep only rows that
resolve to kept or missed. -/
def filteredRows (bulk live : List RawRow) : List RawRow :=
  (dedupeKeepFirst ((bulk ++ live).filter hasRequiredFields)).filter resolvesToOutcome

/-- Modelled from the spec: the full cleaning pipeline of `DatasetCleaner`
(backend `core/services/data_cleaning.py` is absent from the snapshot) —
the surviving rows with their label, derived reminder flag, and per-row
attendance score computed with the strict-earlier-than rule at that row's
own scheduled date over the combined dataset. -/
def cleanRows (bulk live : List RawRow) : List CleanRow :=
  let rows := filteredRows bulk live
  rows.map fun r =>
    { raw := r
      label := labelOf r
      reminder := reminderFinal r
      attendanceScore := score (r.patientId.getD 0) (r.scheduledDate.getD 0) (rows.map rowToVisit) }

/-- Training-time failure of the cleaning stage. -/
inductive CleanError
  | insufficientData
deriving DecidableEq, Repr

/-- Population statistics returned alongside the cleaned table, used for
imputation at serving time. -/
structure PopulationStats where
  medianAge : ℚ
deriving DecidableEq, Repr

/-- The median age of the cleaned rows (middle element of the sorted
ages; 0 when the table is empty). -/
def statsMedianAge (rows : List CleanRow) : ℚ :=
  let ages := (rows.map fun c => c.raw.age.getD 0).insertionSort (· ≤ ·)
  ages.getD (ages.length / 2) 0

/-- All remaining rows carry the same label. -/
def oneLabelClass (rows : List CleanRow) : Prop :=
  ∀ c ∈ rows, ∀ d ∈ rows, c.label = d.label

instance (rows : List CleanRow) : Decidable (oneLabelClass rows) := by
  unfold oneLabelClass; infer_instance

/-- Modelled from the spec: `DatasetCleaner.build` (backend
`core/services/data_cleaning.py` is absent from the snapshot) — fails
with `InsufficientDataError` when fewer than two rows exist or only one
label class is present after filtering, otherwise returns the cleaned
table with population statistics. -/
def datasetBuild (bulk live : List RawRow) :
    Except CleanError (List CleanRow × PopulationStats) :=
  let rows := cleanRows bulk live
  if rows.length < 2 ∨ oneLabelClass rows then Except.error CleanError.insufficientData
  else Except.ok (rows, ⟨statsMedianAge rows⟩)

/-- The embedded prediction of a visit record: label, probability and the
model version that produced it. -/
structure EmbeddedPrediction where
  label : String
  probability : ℤ
  modelVersion : Nat
deriving DecidableEq, Repr

/-- A persisted appointment record with its lifecycle fields and its
embedded prediction. -/
structure ApptRecord where
  status : VisitStatus
  showedUp : Option Bool
  wasLate : Option Bool
  prediction : EmbeddedPrediction
deriving DecidableEq, Repr

/-- The registry and appointment store visible to the post-creation
operations: the persisted appointments and the active model version. -/
structure SystemState where
  appointments : List ApptRecord
  activeModelVersion : Nat
deriving DecidableEq, Repr

/-- The operations that may touch a visit record after its creation:
marking it done with an observed outcome, cancelling it, and a completed
retraining that activates a new model version. -/
inductive PostCreationOp
  | markDone (index : Nat) (showedUp wasLate : Bool)
  | cancel (index : Nat)
  | retrainAndActivate (newVersion : Nat)

/-- Applies a record update to the appointment at a given index, leaving
the rest of the store unchanged. -/
def modifyIdx (f : ApptRecord → ApptRecord) : Nat → List ApptRecord → List ApptRecord
  | _, [] => []
  | 0, a :: as => f a :: as
  | n + 1, a :: as => a :: modifyIdx f n as

/-- The record update performed when a visit is marked done with an
observed outcome. -/
def setDone (su wl : Bool) (a : ApptRecord) : ApptRecord :=
  { a with status := VisitStatus.done, showedUp := some su, wasLate := some wl }

/-- The record update performed when a visit is cancelled. -/
def setCanceled (a : ApptRecord) : ApptRecord :=
  { a with status := VisitStatus.canceled }

/-- Modelled from the spec and the frontend `handleMarkDone` /
`handleCancel` payloads (the backend appointment views are absent from
the snapshot): marking done sets status/showedUp/wasLate, cancelling sets
the status, and retraining only swaps the registry's active version —
none of them writes the embedded prediction. -/
def applyOp (op : PostCreationOp) (s : SystemState) : SystemState :=
  match op with
  | PostCreationOp.markDone i su wl =>
    { s with appointments := modifyIdx (setDone su wl) i s.appointments }
  | PostCreationOp.cancel i =>
    { s with appointments := modifyIdx setCanceled i s.appointments }
  | PostCreationOp.retrainAndActivate v =>
    { s with activeModelVersion := v }

/-- A sequence of post-creation operations applied in order. -/
def applyOps (ops : List PostCreationOp) (s : SystemState) : SystemState :=
  ops.foldl (fun st op => applyOp op st) s

/-- The observable state of the retraining scheduler: the outcome
counter of the current accumulation window, whether a training job is
running, and how many training jobs have been created so far. -/
structure SchedulerState where
  counter : Nat
  jobRunning : Bool
  jobsCreated : Nat
deriving DecidableEq, Repr

/-- The scheduler's initial Idle state: counter zero, no job running, no
job created. -/
def initScheduler : SchedulerState :=
  { counter := 0, jobRunning := false, jobsCreated := 0 }

/-- Modelled from the spec and the README's continuous-learning loop
(backend scheduler code is absent from the snapshot):
`recordOutcome()` increments the counter; on reaching the threshold the
counter resets immediately and, when no job is running, exactly one
training job is enqueued — a crossing while a job is running is coalesced
and enqueues nothing. -/
def recordOutcome (threshold : Nat) (s : SchedulerState) : SchedulerState :=
  let c := s.counter + 1
  if threshold ≤ c then
    if s.jobRunning then
      { counter := 0, jobRunning := s.jobRunning, jobsCreated := s.jobsCreated }
    else
      { counter := 0, jobRunning := true, jobsCreated := s.jobsCreated + 1 }
  else
    { s with counter := c }

/-- A prediction as the frontend stores it: a label (the type union
"Show" | "No-show") and an integer percentage. -/
structure FPrediction where
  label : String
  probability : ℤ
deriving DecidableEq, Repr

/-- An appointment as the frontend receives it: status string, date,
outcome fields and the embedded prediction (checked for presence before
use). -/
structure FAppt where
  status : String
  date : String
  showedUp : Option Bool
  wasLate : Option Bool
  prediction : Option FPrediction
deriving DecidableEq, Repr

/-- The evaluated appointments of the Predictions page: status "done"
and a non-null, non-undefined showedUp. -/
def doneAppts (l : List FAppt) : List FAppt :=
  l.filter fun a => decide (a.status = "done") && !a.showedUp.isNone

/-- The Predictions page's correctness test: a present prediction whose
label matches the recorded outcome. -/
def isCorrectPrediction (a : FAppt) : Bool :=
  match a.prediction with
  | none => false
  | some p =>
    (decide (p.label = "Show") && decide (a.showedUp = some true)) ||
    (decide (p.label = "No-show") && decide (a.showedUp = some false))

/-- The Predictions page's incorrectness test: a present prediction whose
label contradicts the recorded outcome. -/
def isIncorrectPrediction (a : FAppt) : Bool :=
  match a.prediction with
  | none => false
  | some p =>
    (decide (p.label = "Show") && decide (a.showedUp = some false)) ||
    (decide (p.label = "No-show") && decide (a.showedUp = some true))

/-- `correctPredictions` of the Predictions page. -/
def correctPredictions (l : List FAppt) : List FAppt :=
  (doneAppts l).filter isCorrectPrediction

/-- `incorrectPredictions` of the Predictions page. -/
def incorrectPredictions (l : List FAppt) : List FAppt :=
  (doneAppts l).filter isIncorrectPrediction

/-- The dashboard's done appointments: status "done" (no outcome
filter). -/
def dashboardDone (l : List FAppt) : List FAppt :=
  l.filter fun a => decide (a.status = "done")

/-- `showedUpCount` of the dashboard: done appointments with showedUp
exactly true. -/
def showedUpCount (l : List FAppt) : Nat :=
  ((dashboardDone l).filter fun a => decide (a.showedUp = some true)).length

/-- `totalDone` of the dashboard. -/
def totalDone (l : List FAppt) : Nat :=
  (dashboardDone l).length

/-- `Math.round((num / den) * 100)` for non-negative integers with
`den > 0`: round-half-up on the exact percentage. -/
def roundPercent (num den : Nat) : Nat :=
  (200 * num + den) / (2 * den)

/-- `showRate` of the dashboard: the rounded percentage of done
appointments with showedUp true, or 0 when no appointment is done. -/
def showRate (l : List FAppt) : ℤ :=
  if 0 < totalDone l then (roundPercent (showedUpCount l) (totalDone l) : ℤ) else 0

/-- `noShowRate` of the dashboard: 100 minus the show rate, or 0 when no
appointment is done. -/
def noShowRate (l : List FAppt) : ℤ :=
  if 0 < totalDone l then 100 - showRate l else 0

lemma priorDoneVisits_length (pid : Nat) (cutoff : Int) (history : List Visit) :
    (priorDoneVisits pid cutoff history).length =
      history.countP fun v => decide (isQualifying pid cutoff v) := by
  simp [priorDoneVisits, isQualifying, List.countP_eq_length_filter]

lemma priorDoneVisits_shows_length (pid : Nat) (cutoff : Int) (history : List Visit) :
    ((priorDoneVisits pid cutoff history).filter fun v =>
        decide (v.showedUp = some true)).length =
      history.countP fun v => decide (isQualifying pid cutoff v ∧ v.showedUp = some true) := by
  simp only [priorDoneVisits, List.filter_filter, List.countP_eq_length_filter, isQualifying]
  apply congrArg List.length
  apply List.filter_congr
  intro v _
  by_cases h1 : v.patientId = pid <;> by_cases h2 : v.status = VisitStatus.done <;>
    by_cases h3 : v.scheduledDate < cutoff <;> by_cases h4 : v.showedUp = some true <;>
    simp [h1, h2, h3, h4]

/-- C1: `AttendanceScoreCalculator.score(patientId, cutoffDate)` equals
100 times the number of that patient's done visits strictly before the
cutoff with showedUp true, divided by the number of that patient's done
visits strictly before the cutoff; and when no qualifying prior visit
exists it returns exactly 75. -/
theorem attendance_score_formula (pid : Nat) (cutoff : Int) (history : List Visit) :
    score pid cutoff history =
      if history.countP (fun v => decide (isQualifying pid cutoff v)) = 0 then (75 : ℚ)
      else 100 *
          (history.countP (fun v =>
            decide (isQualifying pid cutoff v ∧ v.showedUp = some true)) : ℚ) /
          (history.countP (fun v => decide (isQualifying pid cutoff v)) : ℚ) := by
  rw [score, ← priorDoneVisits_length, ← priorDoneVisits_shows_length]

/-- Scenario B of the spec: four prior done visits with showedUp
[true, true, false, true] give a score of exactly 75. -/
theorem attendance_score_scenario_b :
    score 7 100 [⟨7, 10, VisitStatus.done, some true⟩,
                 ⟨7, 20, VisitStatus.done, some true⟩,
                 ⟨7, 30, VisitStatus.done, some false⟩,
                 ⟨7, 40, VisitStatus.done, some true⟩] = 75 := by
  norm_num [score, priorDoneVisits, List.filter]

/-- Scenario A of the spec: no prior visits at all give the neutral
default 75. -/
theorem attendance_score_scenario_a (cutoff : Int) : score 3 cutoff [] = 75 := by
  simp [score, priorDoneVisits]

lemma priorDoneVisits_of_filter_lt (pid : Nat) (cutoff : Int) (history : List Visit) :
    priorDoneVisits pid cutoff history =
      (history.filter fun v => decide (v.scheduledDate < cutoff)).filter fun v =>
        decide (v.patientId = pid ∧ v.status = VisitStatus.done) := by
  simp only [priorDoneVisits, List.filter_filter]
  apply List.filter_congr
  intro v _
  by_cases h1 : v.patientId = pid <;> by_cases h2 : v.status = VisitStatus.done <;>
    by_cases h3 : v.scheduledDate < cutoff <;> simp [h1, h2, h3]

/-- C2: the attendance score reads history only through the visits
strictly before the cutoff: two histories agreeing on their
strictly-before-cutoff visits get the same score, so adding, removing or
altering any visit scheduled on or after the cutoff never changes the
score; the same invariance holds for the per-row attendance score of the
dataset cleaner, which is this score taken at the row's own scheduled
date. -/
theorem attendance_score_leakage_free (pid : Nat) (cutoff : Int)
    (h1 h2 : List Visit)
    (hagree : (h1.filter fun v => decide (v.scheduledDate < cutoff)) =
              (h2.filter fun v => decide (v.scheduledDate < cutoff))) :
    score pid cutoff h1 = score pid cutoff h2 := by
  unfold score
  rw [priorDoneVisits_of_filter_lt, hagree, ← priorDoneVisits_of_filter_lt]

/-- Concrete instance of the leakage property: a history extended by a
visit scheduled on the cutoff day itself yields the same score. -/
theorem attendance_score_leakage_free_witness :
    ((([⟨1, 5, VisitStatus.done, some true⟩] : List Visit).filter fun v =>
        decide (v.scheduledDate < 9)) =
      (([⟨1, 5, VisitStatus.done, some true⟩,
         ⟨1, 9, VisitStatus.done, some false⟩] : List Visit).filter fun v =>
        decide (v.scheduledDate < 9))) ∧
    score 1 9 [⟨1, 5, VisitStatus.done, some true⟩] =
      score 1 9 [⟨1, 5, VisitStatus.done, some true⟩,
                 ⟨1, 9, VisitStatus.done, some false⟩] :=
  ⟨by decide,
   attendance_score_leakage_free 1 9
     [⟨1, 5, VisitStatus.done, some true⟩]
     [⟨1, 5, VisitStatus.done, some true⟩, ⟨1, 9, VisitStatus.done, some false⟩]
     (by decide)⟩

/-- C5: the feature builder yields exactly the five features in fixed
order — median-imputed age, binary-encoded sex, the scheduling interval
max(0, scheduledDate − bookingDate), reminderSent as 0/1, and the
attendance score at the scheduled-date cutoff — the model's input list
has length five, and a booking-to-scheduled gap of nine days (such as
2026-01-01 to 2026-01-10) yields interval 9. -/
theorem feature_vector_build_spec (p : Patient) (medianAge : ℚ)
    (bookingDate scheduledDate : Int) (reminderSent : Bool) (history : List Visit) :
    featureList (buildFeatureVector p medianAge bookingDate scheduledDate reminderSent history) =
      [p.age.getD medianAge, encodeSex p.sex,
       ((max 0 (scheduledDate - bookingDate) : Int) : ℚ),
       if reminderSent then 1 else 0, score p.id scheduledDate history] ∧
    (featureList (buildFeatureVector p medianAge bookingDate scheduledDate reminderSent history)).length = 5 ∧
    (∀ b : Int,
      (buildFeatureVector p medianAge b (b + 9) reminderSent history).schedulingInterval = 9) := by
  refine ⟨rfl, rfl, fun b => ?_⟩
  show ((schedulingInterval b (b + 9) : Int) : ℚ) = 9
  have h : schedulingInterval b (b + 9) = 9 := by
    unfold schedulingInterval; omega
  rw [h]; norm_num

/-- C4: `predict` labels "Show" exactly when the classifier's show
probability is at least 0.5 and "No-show" otherwise, and reports a
probability that is the rounding of the probability as a percentage,
lying between 0 and 100 whenever the classifier probability lies in
[0, 1]. -/
theorem predict_label_threshold (p : ℚ) (h0 : 0 ≤ p) (h1 : p ≤ 1) :
    ((predictFromProbability p).label = "Show" ↔ (1 : ℚ) / 2 ≤ p) ∧
    ((predictFromProbability p).label = "No-show" ↔ p < (1 : ℚ) / 2) ∧
    (predictFromProbability p).probability = round (100 * p) ∧
    0 ≤ (predictFromProbability p).probability ∧
    (predictFromProbability p).probability ≤ 100 := by
  have hlabel : (predictFromProbability p).label = if (1 : ℚ) / 2 ≤ p then "Show" else "No-show" := rfl
  have hprob : (predictFromProbability p).probability = round (100 * p) := rfl
  refine ⟨?_, ?_, hprob, ?_, ?_⟩
  · rw [hlabel]
    by_cases h : (1 : ℚ) / 2 ≤ p
    · simp [h]
    · simp [h]
  · rw [hlabel]
    by_cases h : (1 : ℚ) / 2 ≤ p
    · simp [h, not_lt.mpr h]
    · simp [h, lt_of_not_le h]
  · rw [hprob, round_eq]
    exact Int.floor_nonneg.mpr (by linarith)
  · rw [hprob, round_eq]
    have hlt : ⌊100 * p + 1 / 2⌋ < 101 := Int.floor_lt.mpr (by push_cast; linarith)
    omega

/-- Concrete instance of the predict contract at a show probability of
4/5: the label is "Show" and the reported percentage is within range. -/
theorem predict_label_threshold_witness :
    (predictFromProbability (4 / 5)).label = "Show" ∧
    0 ≤ (predictFromProbability (4 / 5)).probability ∧
    (predictFromProbability (4 / 5)).probability ≤ 100 := by
  have h := predict_label_threshold (4 / 5) (by norm_num) (by norm_num)
  exact ⟨h.1.mpr (by norm_num), h.2.2.2.1, h.2.2.2.2⟩

lemma dedupeGo_subset (seen : List Nat) (l : List RawRow) :
    ∀ r ∈ dedupeGo seen l, r ∈ l := by
  induction l generalizing seen with
  | nil => intro r hr; exact absurd hr (by simp [dedupeGo])
  | cons a as ih =>
    intro r hr
    by_cases h : a.visitId ∈ seen
    · simp only [dedupeGo, if_pos h] at hr
      exact List.mem_cons_of_mem a (ih seen r hr)
    · simp only [dedupeGo, if_neg h, List.mem_cons] at hr
      rcases hr with hr | hr
      · exact hr ▸ List.mem_cons_self a as
      · exact List.mem_cons_of_mem a (ih _ r hr)

lemma dedupeGo_id_not_seen (seen : List Nat) (l : List RawRow) :
    ∀ r ∈ dedupeGo seen l, r.visitId ∉ seen := by
  induction l generalizing seen with
  | nil => intro r hr; exact absurd hr (by simp [dedupeGo])
  | cons a as ih =>
    intro r hr
    by_cases h : a.visitId ∈ seen
    · simp only [dedupeGo, if_pos h] at hr
      exact ih seen r hr
    · simp only [dedupeGo, if_neg h, List.mem_cons] at hr
      rcases hr with hr | hr
      · exact hr ▸ h
      · have := ih (a.visitId :: seen) r hr
        exact fun hc => this (List.mem_cons_of_mem _ hc)

lemma dedupeGo_ids_nodup (seen : List Nat) (l : List RawRow) :
    ((dedupeGo seen l).map RawRow.visitId).Nodup := by
  induction l generalizing seen with
  | nil => simp [dedupeGo]
  | cons a as ih =>
    by_cases h : a.visitId ∈ seen
    · simpa [dedupeGo, if_pos h] using ih seen
    · simp only [dedupeGo, if_neg h, List.map_cons, List.nodup_cons]
      refine ⟨?_, ih (a.visitId :: seen)⟩
      intro hmem
      rcases List.mem_map.mp hmem with ⟨r, hr, hid⟩
      exact dedupeGo_id_not_seen _ _ r hr (hid ▸ List.mem_cons_self _ _)

lemma dedupeGo_find (seen : List Nat) (l : List RawRow) (i : Nat) (hi : i ∉ seen) :
    (dedupeGo seen l).find? (fun r => decide (r.visitId = i)) =
      l.find? (fun r => decide (r.visitId = i)) := by
  induction l generalizing seen with
  | nil => simp [dedupeGo]
  | cons a as ih =>
    by_cases h : a.visitId ∈ seen
    · have hne : ¬ a.visitId = i := fun hc => hi (hc ▸ h)
      simp only [dedupeGo, if_pos h]
      rw [ih seen hi, List.find?]
      simp [hne]
    · by_cases he : a.visitId = i
      · simp only [dedupeGo, if_neg h]
        rw [List.find?, List.find?]
        simp [he]
      · simp only [dedupeGo, if_neg h]
        rw [List.find?, List.find?]
        simp only [he, decide_eq_false_iff_not.mpr (fun hc : a.visitId = i => he hc)]
        exact ih (a.visitId :: seen) (by
          intro hc
          rcases List.mem_cons.mp hc with hc | hc
          · exact he hc.symm
          · exact hi hc)

/-- C6: for every input union of bulk and live rows, every output row of
the cleaner has patient id, age and scheduled date present; the retained
visit identities are pairwise distinct and, at the de-duplication stage,
the row retained for each identity is the first occurrence; every output
row resolves to kept or missed and carries label 1 exactly for kept and 0
for missed; and every output row lacking an explicit reminder flag has it
set to sent exactly when its scheduling interval is at least 3 days. -/
theorem dataset_cleaner_rules (bulk live : List RawRow) :
    (∀ c ∈ cleanRows bulk live,
        c.raw.patientId.isSome = true ∧ c.raw.age.isSome = true ∧
        c.raw.scheduledDate.isSome = true) ∧
    ((cleanRows bulk live).map (fun c => c.raw.visitId)).Nodup ∧
    (∀ i : Nat,
        (dedupeKeepFirst ((bulk ++ live).filter hasRequiredFields)).find?
            (fun r => decide (r.visitId = i)) =
          ((bulk ++ live).filter hasRequiredFields).find? (fun r => decide (r.visitId = i))) ∧
    (∀ c ∈ cleanRows bulk live,
        (c.raw.status = RowStatus.kept ∨ c.raw.status = RowStatus.missed) ∧
        c.label = (if c.raw.status = RowStatus.kept then 1 else 0)) ∧
    (∀ c ∈ cleanRows bulk live,
        c.raw.reminder = none → (c.reminder = true ↔ 3 ≤ rowInterval c.raw)) := by
  have hmem : ∀ c ∈ cleanRows bulk live,
      c.raw ∈ filteredRows bulk live ∧ c.label = labelOf c.raw ∧
      c.reminder = reminderFinal c.raw := by
    intro c hc
    rcases List.mem_map.mp hc with ⟨r, hr, rfl⟩
    exact ⟨hr, rfl, rfl⟩
  have hfiltered : ∀ r ∈ filteredRows bulk live,
      hasRequiredFields r = true ∧ resolvesToOutcome r = true := by
    intro r hr
    rcases List.mem_filter.mp hr with ⟨hdedupe, hres⟩
    have hin : r ∈ (bulk ++ live).filter hasRequiredFields :=
      dedupeGo_subset [] _ r hdedupe
    exact ⟨(List.mem_filter.mp hin).2, hres⟩
  refine ⟨?_, ?_, ?_, ?_, ?_⟩
  · intro c hc
    have h := (hfiltered c.raw ((hmem c hc).1)).1
    simp only [hasRequiredFields, Bool.and_eq_true] at h
    exact ⟨h.1.1, h.1.2, h.2⟩
  · have h1 : ((filteredRows bulk live).map RawRow.visitId).Nodup := by
      have hsub : (filteredRows bulk live).Sublist
          (dedupeKeepFirst ((bulk ++ live).filter hasRequiredFields)) :=
        List.filter_sublist _
      exact (dedupeGo_ids_nodup [] _).sublist (hsub.map RawRow.visitId)
    have h2 : (cleanRows bulk live).map (fun c => c.raw.visitId) =
        (filteredRows bulk live).map RawRow.visitId := by
      simp [cleanRows, List.map_map, Function.comp]
    rw [h2]; exact h1
  · intro i
    exact dedupeGo_find [] _ i (by simp)
  · intro c hc
    have hres := (hfiltered c.raw ((hmem c hc).1)).2
    have hl := (hmem c hc).2.1
    simp only [resolvesToOutcome, decide_eq_true_eq] at hres
    exact ⟨hres, by rw [hl, labelOf]⟩
  · intro c hc hnone
    have hr := (hmem c hc).2.2
    rw [hr, reminderFinal, hnone]
    simp

/-- Concrete instance of the cleaner rules, echoing Scenario E: of two
rows with the same visit identity the first one is retained, with its
required fields present and its label derived from its kept status. -/
theorem dataset_cleaner_rules_witness :
    (⟨⟨1, some 1, some 30, 0, some 5, RowStatus.kept, some true⟩, 1, true, 75⟩ : CleanRow) ∈
      cleanRows [⟨1, some 1, some 30, 0, some 5, RowStatus.kept, some true⟩,
                 ⟨1, some 1, some 40, 0, some 6, RowStatus.missed, some false⟩] [] ∧
    ((cleanRows [⟨1, some 1, some 30, 0, some 5, RowStatus.kept, some true⟩,
                 ⟨1, some 1, some 40, 0, some 6, RowStatus.missed, some false⟩] []).map
        (fun c => c.raw.visitId)).Nodup ∧
    (⟨⟨1, some 1, some 30, 0, some 5, RowStatus.kept, some true⟩, 1, true, 75⟩ : CleanRow).label = 1 := by
  have h := dataset_cleaner_rules
    [⟨1, some 1, some 30, 0, some 5, RowStatus.kept, some true⟩,
     ⟨1, some 1, some 40, 0, some 6, RowStatus.missed, some false⟩] []
  refine ⟨by decide, h.2.1, ?_⟩
  have := (h.2.2.2.1 ⟨⟨1, some 1, some 30, 0, some 5, RowStatus.kept, some true⟩, 1, true, 75⟩
      (by decide)).2
  simp only [this]

/-- C7: `DatasetCleaner.build` fails with `InsufficientDataError` exactly
when, after all filtering, fewer than two rows remain or all remaining
rows carry the same label; otherwise it returns the cleaned table
together with the population statistics. -/
theorem dataset_build_insufficient_iff (bulk live : List RawRow) :
    (datasetBuild bulk live = Except.error CleanError.insufficientData ↔
      ((cleanRows bulk live).length < 2 ∨ oneLabelClass (cleanRows bulk live))) ∧
    (¬ ((cleanRows bulk live).length < 2 ∨ oneLabelClass (cleanRows bulk live)) ↔
      datasetBuild bulk live =
        Except.ok (cleanRows bulk live, ⟨statsMedianAge (cleanRows bulk live)⟩)) := by
  unfold datasetBuild
  by_cases h : (cleanRows bulk live).length < 2 ∨ oneLabelClass (cleanRows bulk live)
  · simp [h]
  · simp [h]

lemma modifyIdx_map_prediction (f : ApptRecord → ApptRecord)
    (hf : ∀ a, (f a).prediction = a.prediction) (i : Nat) (l : List ApptRecord) :
    (modifyIdx f i l).map ApptRecord.prediction = l.map ApptRecord.prediction := by
  induction l generalizing i with
  | nil => cases i <;> rfl
  | cons a as ih =>
    cases i with
    | zero => simp [modifyIdx, hf a]
    | succ n => simp [modifyIdx, ih n]

lemma applyOp_preserves_predictions (op : PostCreationOp) (s : SystemState) :
    (applyOp op s).appointments.map ApptRecord.prediction =
      s.appointments.map ApptRecord.prediction := by
  cases op with
  | markDone i su wl =>
    exact modifyIdx_map_prediction (setDone su wl) (fun a => rfl) i s.appointments
  | cancel i =>
    exact modifyIdx_map_prediction setCanceled (fun a => rfl) i s.appointments
  | retrainAndActivate v => rfl

/-- C3: after any sequence of post-creation operations — marking visits
done with showedUp/wasLate, cancelling them, or retraining and activating
a new model — every appointment's embedded prediction (label, probability
and modelVersion) is exactly what it was at creation time; only status
and outcome fields of the visit change. -/
theorem embedded_prediction_immutable (ops : List PostCreationOp) (s : SystemState) :
    (applyOps ops s).appointments.map ApptRecord.prediction =
      s.appointments.map ApptRecord.prediction := by
  induction ops generalizing s with
  | nil => rfl
  | cons op rest ih =>
    show (applyOps rest (applyOp op s)).appointments.map ApptRecord.prediction = _
    rw [ih (applyOp op s), applyOp_preserves_predictions]

lemma recordOutcome_below (N : Nat) (s : SchedulerState) (h : ¬ N ≤ s.counter + 1) :
    recordOutcome N s = { s with counter := s.counter + 1 } := by
  simp [recordOutcome, h]

lemma scheduler_accumulate (N k : Nat) (hk : k < N) :
    (recordOutcome N)^[k] initScheduler =
      { counter := k, jobRunning := false, jobsCreated := 0 } := by
  induction k with
  | zero => rfl
  | succ n ih =>
    rw [Function.iterate_succ_apply', ih (Nat.lt_of_succ_lt hk)]
    exact recordOutcome_below N _ (by simp; omega)

lemma scheduler_fires (N : Nat) (hN : 1 ≤ N) :
    (recordOutcome N)^[N] initScheduler =
      { counter := 0, jobRunning := true, jobsCreated := 1 } := by
  obtain ⟨m, rfl⟩ : ∃ m, N = m + 1 := ⟨N - 1, by omega⟩
  rw [Function.iterate_succ_apply', scheduler_accumulate (m + 1) m (by omega)]
  simp [recordOutcome]

lemma scheduler_running_window (N j : Nat) (hN : 1 ≤ N) (hj : j < N) :
    (recordOutcome N)^[N + j] initScheduler =
      { counter := j, jobRunning := true, jobsCreated := 1 } := by
  induction j with
  | zero => simpa using scheduler_fires N hN
  | succ n ih =>
    rw [show N + (n + 1) = (N + n) + 1 by omega, Function.iterate_succ_apply',
      ih (Nat.lt_of_succ_lt hj)]
    exact recordOutcome_below N _ (by simp; omega)

/-- C8: starting from the Idle scheduler state with counter zero,
exactly N `recordOutcome()` calls create exactly one training job, with
the counter reset immediately on enqueue; the calls N+1 .. 2N−1 arriving
while that job is running create zero additional jobs — throughout, the
single `jobRunning` flag means at most one training job runs
concurrently. -/
theorem retrain_scheduler_single_job (N : Nat) (hN : 1 ≤ N) :
    ((recordOutcome N)^[N] initScheduler).jobsCreated = 1 ∧
    ((recordOutcome N)^[N] initScheduler).counter = 0 ∧
    ((recordOutcome N)^[N] initScheduler).jobRunning = true ∧
    (∀ j : Nat, j < N →
      (recordOutcome N)^[N + j] initScheduler =
        { counter := j, jobRunning := true, jobsCreated := 1 }) := by
  refine ⟨?_, ?_, ?_, fun j hj => scheduler_running_window N j hN hj⟩ <;>
    rw [scheduler_fires N hN]

/-- Concrete instance at the default threshold N = 10: the tenth call
enqueues the single job and the nineteenth call still has created exactly
one job. -/
theorem retrain_scheduler_single_job_witness :
    ((recordOutcome 10)^[10] initScheduler).jobsCreated = 1 ∧
    (recordOutcome 10)^[10 + 9] initScheduler =
      { counter := 9, jobRunning := true, jobsCreated := 1 } := by
  have h := retrain_scheduler_single_job 10 (by decide)
  exact ⟨h.1, h.2.2.2 9 (by decide)⟩

/-- C9: an appointment is evaluated exactly when its status is "done" and
its showedUp is present; an evaluated appointment with a prediction is in
the correct bucket exactly when the label matches the outcome and in the
incorrect bucket exactly when it contradicts it; and under the frontend
type's label union ("Show" | "No-show") it lies in exactly one of the two
buckets. -/
theorem prediction_accuracy_partition (l : List FAppt) (a : FAppt) :
    (a ∈ doneAppts l ↔ a ∈ l ∧ a.status = "done" ∧ a.showedUp ≠ none) ∧
    (∀ p : FPrediction, a ∈ doneAppts l → a.prediction = some p →
      ((a ∈ correctPredictions l ↔
          ((p.label = "Show" ∧ a.showedUp = some true) ∨
           (p.label = "No-show" ∧ a.showedUp = some false))) ∧
       (a ∈ incorrectPredictions l ↔
          ((p.label = "Show" ∧ a.showedUp = some false) ∨
           (p.label = "No-show" ∧ a.showedUp = some true))) ∧
       ((p.label = "Show" ∨ p.label = "No-show") →
          (a ∈ correctPredictions l ↔ a ∉ incorrectPredictions l)))) := by
  have hdone : a ∈ doneAppts l ↔ a ∈ l ∧ a.status = "done" ∧ a.showedUp ≠ none := by
    rw [doneAppts, List.mem_filter]
    constructor
    · rintro ⟨hl, hb⟩
      simp only [Bool.and_eq_true, decide_eq_true_eq, Bool.not_eq_true',
        Option.isNone_eq_false_iff, Option.isSome_iff_ne_none] at hb
      exact ⟨hl, hb.1, hb.2⟩
    · rintro ⟨hl, hs, hn⟩
      refine ⟨hl, ?_⟩
      simp only [Bool.and_eq_true, decide_eq_true_eq, Bool.not_eq_true',
        Option.isNone_eq_false_iff, Option.isSome_iff_ne_none]
      exact ⟨hs, hn⟩
  refine ⟨hdone, fun p hmem hp => ?_⟩
  have hcorrect : a ∈ correctPredictions l ↔
      ((p.label = "Show" ∧ a.showedUp = some true) ∨
       (p.label = "No-show" ∧ a.showedUp = some false)) := by
    rw [correctPredictions, List.mem_filter]
    simp [hmem, isCorrectPrediction, hp]
  have hincorrect : a ∈ incorrectPredictions l ↔
      ((p.label = "Show" ∧ a.showedUp = some false) ∨
       (p.label = "No-show" ∧ a.showedUp = some true)) := by
    rw [incorrectPredictions, List.mem_filter]
    simp [hmem, isIncorrectPrediction, hp]
  refine ⟨hcorrect, hincorrect, fun hl => ?_⟩
  obtain ⟨b, hb⟩ : ∃ b, a.showedUp = some b := by
    have := (hdone.mp hmem).2.2
    cases hsu : a.showedUp with
    | none => exact absurd hsu this
    | some b => exact ⟨b, rfl⟩
  have hne : ("Show" : String) ≠ "No-show" := by decide
  rw [hcorrect, hincorrect]
  rcases hl with hl | hl <;> cases b <;> simp [hl, hb, hne, hne.symm]

/-- Concrete instance of the accuracy partition: a done, showed-up
appointment predicted "Show" is counted correct and not incorrect. -/
theorem prediction_accuracy_partition_witness :
    (⟨"done", "2026-03-01", some true, some false, some ⟨"Show", 80⟩⟩ : FAppt) ∈
      correctPredictions [⟨"done", "2026-03-01", some true, some false, some ⟨"Show", 80⟩⟩] ∧
    (⟨"done", "2026-03-01", some true, some false, some ⟨"Show", 80⟩⟩ : FAppt) ∉
      incorrectPredictions [⟨"done", "2026-03-01", some true, some false, some ⟨"Show", 80⟩⟩] := by
  have h := prediction_accuracy_partition
    [⟨"done", "2026-03-01", some true, some false, some ⟨"Show", 80⟩⟩]
    ⟨"done", "2026-03-01", some true, some false, some ⟨"Show", 80⟩⟩
  have hp := h.2 ⟨"Show", 80⟩ (by decide) (by decide)
  have hc : (⟨"done", "2026-03-01", some true, some false, some ⟨"Show", 80⟩⟩ : FAppt) ∈
      correctPredictions [⟨"done", "2026-03-01", some true, some false, some ⟨"Show", 80⟩⟩] :=
    hp.1.mpr (Or.inl ⟨rfl, rfl⟩)
  exact ⟨hc, ((hp.2.2 (Or.inl rfl)).mp hc)⟩

lemma showedUpCount_le_totalDone (l : List FAppt) : showedUpCount l ≤ totalDone l :=
  List.length_filter_le _ _

lemma roundPercent_le_100 (num den : Nat) (hle : num ≤ den) (hden : 0 < den) :
    roundPercent num den ≤ 100 := by
  have h : roundPercent num den < 101 := by
    rw [roundPercent, Nat.div_lt_iff_lt_mul (by omega : 0 < 2 * den)]
    omega
  omega

/-- C10: whenever at least one appointment is done, the dashboard's
no-show rate is exactly 100 minus its show rate (the show rate being the
rounded percentage of done appointments with showedUp true, itself at
most 100), so the two rates sum to exactly 100 despite rounding; with no
done appointment both rates are 0. -/
theorem dashboard_rates_complementary (l : List FAppt) :
    (0 < totalDone l →
       showRate l = (roundPercent (showedUpCount l) (totalDone l) : ℤ) ∧
       noShowRate l = 100 - showRate l ∧
       showRate l + noShowRate l = 100 ∧
       0 ≤ showRate l ∧ showRate l ≤ 100) ∧
    (totalDone l = 0 → showRate l = 0 ∧ noShowRate l = 0) := by
  constructor
  · intro h
    have hs : showRate l = (roundPercent (showedUpCount l) (totalDone l) : ℤ) := by
      rw [showRate, if_pos h]
    have hn : noShowRate l = 100 - showRate l := by
      rw [noShowRate, if_pos h]
    have hb : roundPercent (showedUpCount l) (totalDone l) ≤ 100 :=
      roundPercent_le_100 _ _ (showedUpCount_le_totalDone l) h
    refine ⟨hs, hn, by omega, ?_, ?_⟩
    · rw [hs]; exact_mod_cast Nat.zero_le _
    · rw [hs]; exact_mod_cast hb
  · intro h
    have hnot : ¬ 0 < totalDone l := by omega
    rw [showRate, noShowRate, if_neg hnot, if_neg hnot]
    exact ⟨rfl, rfl⟩

/-- Concrete instance of the rate relation: a single done, showed-up
appointment gives show rate 100 and no-show rate 0, summing to 100. -/
theorem dashboard_rates_complementary_witness :
    0 < totalDone [⟨"done", "2026-03-01", some true, none, none⟩] ∧
    noShowRate [⟨"done", "2026-03-01", some true, none, none⟩] =
      100 - showRate [⟨"done", "2026-03-01", some true, none, none⟩] ∧
    showRate [⟨"done", "2026-03-01", some true, none, none⟩] +
      noShowRate [⟨"done", "2026-03-01", some true, none, none⟩] = 100 := by
  have h := dashboard_rates_complementary [⟨"done", "2026-03-01", some true, none, none⟩]
  have hpos : 0 < totalDone [⟨"done", "2026-03-01", some true, none, none⟩] := by decide
  exact ⟨hpos, (h.1 hpos).2.1, (h.1 hpos).2.2.1⟩

end HealthSphere

